import Mathlib

/-!
Shallow embedding of the video decode-and-playback pipeline of
qoidnaufal/video-tagger (src/lib.rs, src/video_player.rs), together with
theorems settling the specification claims about it.

Modelling conventions:
* Machine time (`std::time::Instant`, `std::time::Duration`) is embedded as
  the rational timeline ℚ: an `Instant` is a point on an unbounded monotonic
  timeline, a `Duration` is a nonnegative rational number of seconds.
  `f64` second arithmetic is idealised as exact rational arithmetic.
* A Rust `panic!` (from `.unwrap()` or from a panicking std function) is the
  `Except`-error value `Panic`.
* External library primitives (ffmpeg codec calls, `std::sync::mpsc`
  channels) are embedded from their documented contracts, at the granularity
  the repository uses them.
-/

namespace VideoTagger

/-- Reason a Rust thread aborts: an `unwrap` on an `Err`/`None` value, or the
`std::time::Duration::from_secs_f64` abort on a negative seconds value. -/
inductive Panic where
  | unwrapErr
  | negativeDuration
  deriving DecidableEq, Repr

/-- Embedding of `std::time::Duration::from_secs_f64` (used at lib.rs:53):
the std function aborts the thread when its argument is negative; otherwise
it returns the duration. Overflow and non-finite inputs do not arise on the
idealised rational timeline. -/
def Duration.from_secs_f64 (secs : ℚ) : Except Panic ℚ :=
  if secs < 0 then .error .negativeDuration else .ok secs

/-- Embedding of `std::time::Instant::checked_add` (lib.rs:55): on the
idealised unbounded timeline the sum is always representable. -/
def Instant.checked_add (t d : ℚ) : Option ℚ :=
  some (t + d)

/-- Embedding of `std::time::Instant::duration_since` (lib.rs:57): since Rust
1.60 this saturates to the zero duration when `earlier` is in fact later. -/
def Instant.duration_since (later earlier : ℚ) : ℚ :=
  max 0 (later - earlier)

/-- Embedding of `StreamClock` (lib.rs:32-35): `time_base_seconds` is the
stream time base `numerator / denominator` computed once in
`StreamClock::new` (lib.rs:38-48), `start_time` the instant captured there. -/
structure StreamClock where
  time_base_seconds : ℚ
  start_time : ℚ
  deriving DecidableEq, Repr

/-- Embedding of `StreamClock::convert_pts_to_instant` (lib.rs:50-58).
The extra argument `now` is the value `std::time::Instant::now()` reads at
the call (lib.rs:57). Inside the `and_then` closure the code computes
`Duration::from_secs_f64(pts as f64 * self.time_base_seconds)` — which can
abort the thread — then `self.start_time.checked_add(..)`; the resulting
optional instant is mapped through `duration_since(now)`. -/
def StreamClock.convert_pts_to_instant (c : StreamClock) (pts : Option ℤ) (now : ℚ) :
    Except Panic (Option ℚ) :=
  match pts with
  | none => .ok none
  | some p =>
    match Duration.from_secs_f64 ((p : ℚ) * c.time_base_seconds) with
    | .error e => .error e
    | .ok pts_since_start =>
      .ok ((Instant.checked_add c.start_time pts_since_start).map
        (fun absolute_pts => Instant.duration_since absolute_pts now))

/-- The clock used in concrete evaluations: time base `1/25`, start instant
at origin. -/
def clock25 : StreamClock :=
  { time_base_seconds := 1 / 25, start_time := 0 }

/-- A compressed packet handed from the demux side to the decoder. The
pipeline treats its payload as opaque; only identity matters here. -/
structure Packet where
  id : ℕ
  deriving DecidableEq, Repr

/-- Capacity of the bounded packet channel: `std::sync::mpsc::sync_channel(128)`
at lib.rs:93. -/
def packet_channel_capacity : ℕ := 128

/-- State of a `std::sync::mpsc::sync_channel`, embedded from its documented
contract (a bounded FIFO buffer), at the granularity the repository uses it
(lib.rs:93, lib.rs:106, lib.rs:157). `sent` and `received` are the
histories of completed send and receive operations. -/
structure SyncChannel (α : Type) where
  capacity : ℕ
  buffer : List α
  sent : List α
  received : List α

/-- One completed channel operation. A `send` into a full buffer is not a
step at all: the producer stays blocked until the buffer has room, which is
exactly the side condition on the `send` constructor. A `recv` from an empty
buffer likewise blocks. -/
inductive ChanStep {α : Type} : SyncChannel α → SyncChannel α → Prop where
  | send (c : SyncChannel α) (a : α) (h : c.buffer.length < c.capacity) :
      ChanStep c { c with buffer := c.buffer ++ [a], sent := c.sent ++ [a] }
  | recv (c : SyncChannel α) (a : α) (rest : List α) (h : c.buffer = a :: rest) :
      ChanStep c { c with buffer := rest, received := c.received ++ [a] }

/-- Channel states reachable from a freshly created channel of some
capacity (lib.rs:93 creates one with `packet_channel_capacity`). -/
inductive ChanReachable {α : Type} : SyncChannel α → Prop where
  | init (cap : ℕ) : ChanReachable { capacity := cap, buffer := [], sent := [], received := [] }
  | step {c c' : SyncChannel α} : ChanReachable c → ChanStep c c' → ChanReachable c'

/-- Embedding of `VideoDecoder::receive_packet` (lib.rs:156-161): the
blocking `SyncSender::send` returns `Ok` unless the receiver is gone, and
the method maps that to a Bool. -/
def VideoDecoder.receive_packet (receiver_alive : Bool) : Bool :=
  receiver_alive

/-- Pixel formats the pipeline mentions: the rescaler target `RGB24`
(lib.rs:373) and whatever planar format the decoder yields. -/
inductive PixelFormat where
  | RGB24
  | YUV420P
  deriving DecidableEq, Repr

/-- A decoded video frame as the frame callback sees it: dimensions, the
stride of plane 0 (`frame.stride(0)`, lib.rs:216) and the bytes of plane 0
(`frame.data(0)`). -/
structure VideoFrame where
  format : PixelFormat
  width : ℕ
  height : ℕ
  stride0 : ℕ
  data0 : List ℕ
  deriving DecidableEq, Repr

/-- Embedding of `ffmpeg::software::scaling::Context::get` as configured by
`rescaler` (lib.rs:367-380): source format and dimensions come from the
input frame, the destination is `RGB24` at the same width and height. -/
structure ScalingContext where
  src_format : PixelFormat
  src_width : ℕ
  src_height : ℕ
  dst_format : PixelFormat
  dst_width : ℕ
  dst_height : ℕ
  deriving DecidableEq, Repr

/-- Embedding of `rescaler` (lib.rs:367-380). -/
def rescaler (frame : VideoFrame) : ScalingContext :=
  { src_format := frame.format
    src_width := frame.width
    src_height := frame.height
    dst_format := .RGB24
    dst_width := frame.width
    dst_height := frame.height }

/-- Embedding of `slice::chunks_exact(n)` collected to a list: the maximal
run of full `n`-element chunks, any shorter remainder discarded. -/
def chunks_exact {α : Type} (n : ℕ) (l : List α) : List (List α) :=
  if h : 0 < n ∧ n ≤ l.length then
    l.take n :: chunks_exact n (l.drop n)
  else []
termination_by l.length
decreasing_by
  simp only [List.length_drop]
  omega

/-- Embedding of the pixel-copy loop of the frame callback (lib.rs:206-220)
applied to the rescaled RGB frame. `pixel_buffer` is
`ImageBuffer::<Rgb<u8>,_>::new(W, H)`: `H * W` zero-initialised pixels of 3
bytes each, so `chunks_mut(W * 3)` yields exactly `H` rows of `3 * W` zero
bytes (for `W = 0` the Rust `chunks_mut(0)` aborts; this embedding is only
used at positive widths). `chunks_exact(stride)` yields the source rows;
`zip` stops at the shorter iterator, each destination row receives
`source[..dest.len()]` (a prefix of the source row, well-defined whenever
the stride is at least the packed row width), and destination rows without
a source partner keep their zero initialisation. -/
def copy_to_pixel_buffer (rgb_frame : VideoFrame) : List ℕ :=
  let dest_rows := List.replicate rgb_frame.height (List.replicate (3 * rgb_frame.width) 0)
  let source_rows := chunks_exact rgb_frame.stride0 rgb_frame.data0
  (List.zipWith (fun source dest => source.take dest.length) source_rows dest_rows
      ++ dest_rows.drop source_rows.length).flatten

/-- A concrete rescaled frame for the C7 witness: `1×2` pixels, stride 4
(one padding byte per row), plane bytes `[1,2,3,9,4,5,6,8]` with padding
bytes `9` and `8`. -/
def witness_frame : VideoFrame :=
  { format := .RGB24, width := 1, height := 2, stride0 := 4
    data0 := [1, 2, 3, 9, 4, 5, 6, 8] }

/-- Embedding of `ControlCommand` (video_player.rs:16-20). -/
inductive ControlCommand where
  | Play
  | Pause
  | Stop
  deriving DecidableEq, Repr

/-- Error an `mpsc` send reports when the receiving end no longer exists. -/
inductive SendError where
  | disconnected
  deriving DecidableEq, Repr

/-- Embedding of `std::sync::mpsc::Sender::send`: succeeds exactly when the
receiving end is still alive; the message value itself is irrelevant to the
outcome. -/
def mpsc_send (receiver_alive : Bool) : ControlCommand → Except SendError Unit :=
  fun _ => if receiver_alive then .ok () else .error .disconnected

/-- Decode failure of a single packet inside the codec (the `Err` case of
`send_packet` at lib.rs:112). -/
inductive DecodeError where
  | invalidData
  deriving DecidableEq, Repr

/-- A decoded frame as the worker pacing logic sees it: only the
presentation timestamp matters there (lib.rs:117). -/
structure DecodedFrame where
  pts : Option ℤ
  deriving DecidableEq, Repr

/-- Functional abstraction of the ffmpeg codec for one packet: feeding the
packet (`send_packet`, lib.rs:112) either fails with a `DecodeError` or
succeeds, after which the `receive_frame` drain loop (lib.rs:115) yields a
finite list of decoded frames. -/
abbrev Codec : Type := Packet → Except DecodeError (List DecodedFrame)

/-- Observable actions of the Decoder Worker thread. `sleep` is the
unconditional `std::thread::sleep` of lib.rs:119, run to completion;
`emitFrame` is the `frame_callback` invocation of lib.rs:122. The two wait
styles the specification asks for — reading the control channel, or an
interruptible wait keyed on it — are included in the vocabulary so that
their absence from every trace is a provable statement. -/
inductive WorkerEffect where
  | sleep (d : ℚ)
  | emitFrame (f : DecodedFrame)
  | readControl
  | controlWait (d : ℚ)
  deriving DecidableEq, Repr

/-- State threaded through the worker: the current instant of the idealised
clock (sleeping for `d` advances it by `d`; everything else is treated as
instantaneous) and the trace of effects so far. -/
structure WorkerState where
  now : ℚ
  trace : List WorkerEffect
  deriving DecidableEq, Repr

/-- Sequencing with panic propagation: once a panic happens the thread is
gone and nothing further runs. -/
def and_then_worker (r : WorkerState × Option Panic)
    (k : WorkerState → WorkerState × Option Panic) : WorkerState × Option Panic :=
  match r with
  | (s, none) => k s
  | (s, some p) => (s, some p)

/-- Embedding of the per-frame body of the drain loop (lib.rs:115-123):
compute the delay from the frame pts — which can abort the thread on a
negative pts — sleep the full returned delay if there is one, then invoke
the frame callback. -/
def frame_delivery (clock : StreamClock) (f : DecodedFrame) (s : WorkerState) :
    WorkerState × Option Panic :=
  match clock.convert_pts_to_instant f.pts s.now with
  | .error p => (s, some p)
  | .ok none => ({ now := s.now, trace := s.trace ++ [.emitFrame f] }, none)
  | .ok (some delay) =>
      ({ now := s.now + delay, trace := s.trace ++ [.sleep delay, .emitFrame f] }, none)

/-- Embedding of one packet iteration of the inner receive loop
(lib.rs:106-123): `packet_decoder.send_packet(&packet).unwrap()` aborts the
thread on a decode error; otherwise every frame the codec yields goes
through `frame_delivery`. -/
def process_packet (codec : Codec) (clock : StreamClock) (p : Packet)
    (s : WorkerState) : WorkerState × Option Panic :=
  match codec p with
  | .error _ => (s, some .unwrapErr)
  | .ok frames => frames.foldl (fun r f => and_then_worker r (frame_delivery clock f)) (s, none)

/-- Embedding of the inner `packet_receiver_impl` loop (lib.rs:104-125) over
a whole session: the bounded channel delivers the demuxed packets in order
(see `ChanStep`), and once the sender is dropped and the buffer drained,
`recv()` returns `Err`, which the `let Ok(packet) = .. else break` turns
into loop exit. The packet-list argument is that in-order delivery. -/
def worker_inner_loop (codec : Codec) (clock : StreamClock) :
    List Packet → WorkerState → WorkerState × Option Panic
  | [], s => (s, none)
  | p :: ps, s =>
      and_then_worker (process_packet codec clock p s) (worker_inner_loop codec clock ps)

/-- What a loop iteration asks the enclosing loop to do. -/
inductive LoopControl where
  | continueLoop
  | breakLoop
  | returnLoop
  deriving DecidableEq, Repr

/-- One iteration of the outer worker loop (lib.rs:131-144): `playing` is
the local `let playing = true` of lib.rs:129 and is never reassigned, the
`OptionFuture` is rebuilt from a fresh clone of the shared — and by then
completed — packet future, the single `select!` arm runs an empty handler,
and control falls through to the next iteration. No statement in the body
breaks out of or returns from the loop. -/
def outer_loop_body : LoopControl := .continueLoop

/-- How far the worker thread has got. -/
inductive WorkerOutcome where
  | running
  | exited
  | panicked (p : Panic)
  deriving DecidableEq, Repr

/-- The outer `loop` of lib.rs:131-144 observed for `fuel` iterations. -/
def outer_loop : ℕ → WorkerOutcome
  | 0 => .running
  | n + 1 =>
      match outer_loop_body with
      | .continueLoop => outer_loop n
      | .breakLoop => .exited
      | .returnLoop => .exited

/-- The whole Receiver Thread body (lib.rs:102-145): the inner loop consumes
the session packets (a panic there aborts the thread); on normal completion
the outer loop takes over. -/
def worker_thread (codec : Codec) (clock : StreamClock) (packets : List Packet)
    (fuel : ℕ) : WorkerOutcome × WorkerState :=
  match worker_inner_loop codec clock packets { now := 0, trace := [] } with
  | (s, some p) => (.panicked p, s)
  | (s, none) => (outer_loop fuel, s)

/-- Effects the worker can have without ever touching the control channel:
pacing sleeps and frame deliveries. -/
def pacing_or_frame : WorkerEffect → Bool
  | .sleep _ => true
  | .emitFrame _ => true
  | .readControl => false
  | .controlWait _ => false

/-- Codec of the C1 concrete session: every packet decodes to one frame with
pts 25 (a 1-second delay under `clock25`). -/
def codec_one_frame : Codec := fun _ => .ok [{ pts := some 25 }]

/-- Codec of the C5 witness: every packet fails to decode. -/
def codec_rejects : Codec := fun _ => .error .invalidData

/-- The handle `VideoDecoder::start` returns, reduced to the facts the
claims are about: whether the receiving end of the control channel still
exists anywhere, and the packet channel capacity. -/
structure VideoDecoderHandle where
  control_receiver_alive : Bool
  packet_capacity : ℕ
  deriving DecidableEq, Repr

/-- Embedding of the `VideoDecoder` value `VideoDecoder::start` returns
(lib.rs:88-154). The worker closure spawned at lib.rs:102 captures
`packet_receiver`, `packet_decoder`, `clock` and `frame_callback` and
nothing else; in particular `control_receiver` (created at lib.rs:92) is
never moved out of `start` and is dropped when `start` returns, leaving the
control channel permanently disconnected. The packet channel is the bounded
channel of capacity 128 (lib.rs:93). -/
def VideoDecoder.start : VideoDecoderHandle :=
  { control_receiver_alive := false, packet_capacity := packet_channel_capacity }

/-- Embedding of `VideoDecoder::send_control_message` (lib.rs:163-165):
`self.control_sender.send(message).unwrap()`. -/
def VideoDecoder.send_control_message (h : VideoDecoderHandle)
    (message : ControlCommand) : Except Panic Unit :=
  match mpsc_send h.control_receiver_alive message with
  | .ok u => .ok u
  | .error _ => .error .unwrapErr

/-- Open-path failures: the container file is missing, unreadable or not a
recognised container. -/
inductive OpenError where
  | fileMissing
  | unreadable
  | unrecognizedContainer
  deriving DecidableEq, Repr

/-- Codec-initialisation failure for the stream parameters. -/
inductive DecoderInitError where
  | unsupportedParameters
  deriving DecidableEq, Repr

/-- An opened container, opaque beyond identity. -/
structure Container where
  id : ℕ
  deriving DecidableEq, Repr

/-- A stream within a container, opaque beyond its index. -/
structure VStream where
  index : ℕ
  deriving DecidableEq, Repr

/-- A codec context built from stream parameters, opaque beyond identity. -/
structure CodecContext where
  id : ℕ
  deriving DecidableEq, Repr

/-- Environment the open path runs against: the outcomes of the fallible
external calls at lib.rs:194-195 and lib.rs:95-96 for the chosen source. -/
structure OpenEnv where
  format_input : Except OpenError Container
  best_stream : Container → Option VStream
  from_parameters : VStream → Except DecoderInitError CodecContext
  decoder_video : CodecContext → Except DecoderInitError CodecContext

/-- Fate of the spawned Playback Thread. -/
inductive ThreadFate where
  | panicked (p : Panic)
  | loopsForever
  deriving DecidableEq, Repr

/-- Embedding of the closure `App::handle_video_source` passes to
`VideoPlayer::start` (lib.rs:191-267): `ffmpeg::format::input(&path).unwrap()`
(lib.rs:194), `.best(Video).unwrap()` (lib.rs:195), then inside
`VideoDecoder::start` the calls `Context::from_parameters(..).unwrap()` and
`.decoder().video().unwrap()` (lib.rs:95-96). Each failure aborts the
spawned thread via `unwrap`. On success the packet-forwarding outer loop
(lib.rs:253-266) mirrors the worker outer loop and has no exit path. -/
def playback_thread_body (env : OpenEnv) : ThreadFate :=
  match env.format_input with
  | .error _ => .panicked .unwrapErr
  | .ok ictx =>
      match env.best_stream ictx with
      | none => .panicked .unwrapErr
      | some stream =>
          match env.from_parameters stream with
          | .error _ => .panicked .unwrapErr
          | .ok ctx =>
              match env.decoder_video ctx with
              | .error _ => .panicked .unwrapErr
              | .ok _ => .loopsForever

/-- Embedding of `App::handle_video_source` for a present source
(lib.rs:185-274): `VideoPlayer::start` (video_player.rs:58-74) spawns the
closure on the Playback Thread and returns to its caller immediately with
no error channel (first component); the fate of the closure plays out on
the spawned thread (second component). -/
def handle_video_source (env : OpenEnv) : Unit × ThreadFate :=
  ((), playback_thread_body env)

/-- The open-path failure modes of claim C3: the container cannot be opened,
no video stream exists, or the codec context or video decoder cannot be
created from the stream parameters. -/
def open_path_fails (env : OpenEnv) : Prop :=
  (∃ e, env.format_input = .error e) ∨
  (∃ c, env.format_input = .ok c ∧ env.best_stream c = none) ∨
  (∃ c s e, env.format_input = .ok c ∧ env.best_stream c = some s ∧
    env.from_parameters s = .error e) ∨
  (∃ c s ctx e, env.format_input = .ok c ∧ env.best_stream c = some s ∧
    env.from_parameters s = .ok ctx ∧ env.decoder_video ctx = .error e)

/-- Environment of the C3 witness: the source path does not open. -/
def missing_file_env : OpenEnv :=
  { format_input := .error .fileMissing
    best_stream := fun _ => none
    from_parameters := fun _ => .error .unsupportedParameters
    decoder_video := fun _ => .error .unsupportedParameters }

/-- A spawned-thread handle, opaque beyond identity. -/
structure ThreadHandle where
  id : ℕ
  deriving DecidableEq, Repr

/-- Teardown actions a handle destructor could take. -/
inductive TeardownEffect where
  | sendStop
  | joinThread
  | detachThread
  deriving DecidableEq, Repr

/-- Whether a teardown action is one of the two the specification requires
of the destructor: sending Stop or joining the decode thread. -/
def teardown_is_stop_or_join : TeardownEffect → Bool
  | .sendStop => true
  | .joinThread => true
  | .detachThread => false

/-- The fields of `VideoPlayer` (video_player.rs:23-28) relevant to its
destructor. -/
structure VideoPlayerState where
  playback_thread : Option ThreadHandle
  control_sender_present : Bool
  deriving DecidableEq, Repr

/-- Embedding of `impl Drop for VideoPlayer` (video_player.rs:30-36): the
destructor takes the thread handle out of its slot and merely drops it —
dropping a Rust `JoinHandle` detaches the thread. It sends no Stop command
and joins nothing. -/
def VideoPlayer.drop (vp : VideoPlayerState) : VideoPlayerState × List TeardownEffect :=
  match vp.playback_thread with
  | some _ => ({ vp with playback_thread := none }, [.detachThread])
  | none => (vp, [])

/-- C8 counterexample: the claim says `toDelay` never yields an error for a
present pts, but at `pts = -1` (time base `1/25`, evaluated at the start
instant) `convert_pts_to_instant` aborts inside
`Duration::from_secs_f64` on the negative seconds value `-1/25`, instead of
returning a delay. -/
theorem convert_pts_negative_panics :
    clock25.convert_pts_to_instant (some (-1)) 0 = .error .negativeDuration := by
  norm_num [StreamClock.convert_pts_to_instant, Duration.from_secs_f64, clock25]

theorem convert_pts_nonneg (c : StreamClock) (p : ℤ) (now : ℚ)
    (hp : 0 ≤ p) (htb : 0 ≤ c.time_base_seconds) :
    c.convert_pts_to_instant (some p) now =
      .ok (some (max 0 (c.start_time + (p : ℚ) * c.time_base_seconds - now))) := by
  have hnonneg : 0 ≤ (p : ℚ) * c.time_base_seconds :=
    mul_nonneg (by exact_mod_cast hp) htb
  simp [StreamClock.convert_pts_to_instant, Duration.from_secs_f64, not_lt.mpr hnonneg,
    Instant.checked_add, Instant.duration_since]

/-- C8 (amended): for an absent pts the clock returns absent, and for every
present nonnegative pts (with the nonnegative time base every video stream
has) it returns `max 0 (startInstant + pts * timeBaseSeconds - now)` — a
late frame saturates to the zero delay. Negative pts are excluded: there the
code aborts (see the counterexample). -/
theorem convert_pts_to_instant_spec (c : StreamClock) (p : ℤ) (now : ℚ)
    (hp : 0 ≤ p) (htb : 0 ≤ c.time_base_seconds) :
    c.convert_pts_to_instant none now = .ok none ∧
    c.convert_pts_to_instant (some p) now =
      .ok (some (max 0 (c.start_time + (p : ℚ) * c.time_base_seconds - now))) :=
  ⟨rfl, convert_pts_nonneg c p now hp htb⟩

/-- C8 witness: the amended statement evaluated at the clock with time base
`1/25`, pts `50`, at the start instant. -/
theorem convert_pts_to_instant_spec_witness :
    clock25.convert_pts_to_instant none 0 = .ok none ∧
    clock25.convert_pts_to_instant (some 50) 0 =
      .ok (some (max 0 (clock25.start_time + (50 : ℚ) * clock25.time_base_seconds - 0))) :=
  convert_pts_to_instant_spec clock25 50 0 (by norm_num) (by norm_num [clock25])

/-- C9: with time base `1/25` and start instant `T0`, the delay for pts `50`
computed at `T0` is exactly 2 seconds, the delays for pts `0,1,2,3,4`
computed at `T0` are `0, 1/25, 2/25, 3/25, 4/25` seconds, and that delay
sequence is non-decreasing. -/
theorem clock_delay_two_seconds (T0 : ℚ) :
    (StreamClock.mk (1 / 25) T0).convert_pts_to_instant (some 50) T0 = .ok (some 2) ∧
    ([(0 : ℤ), 1, 2, 3, 4].map
        (fun k => (StreamClock.mk (1 / 25) T0).convert_pts_to_instant (some k) T0)) =
      ([(0 : ℚ), 1 / 25, 2 / 25, 3 / 25, 4 / 25].map (fun d => .ok (some d))) ∧
    List.Chain' (· ≤ ·) [(0 : ℚ), 1 / 25, 2 / 25, 3 / 25, 4 / 25] := by
  have h : ∀ (p : ℤ), 0 ≤ p →
      (StreamClock.mk (1 / 25) T0).convert_pts_to_instant (some p) T0 =
        .ok (some (max 0 (T0 + (p : ℚ) * (1 / 25) - T0))) := by
    intro p hp
    exact convert_pts_nonneg (StreamClock.mk (1 / 25) T0) p T0 hp (by norm_num)
  refine ⟨?_, ?_, ?_⟩
  · rw [h 50 (by norm_num)]
    norm_num
  · simp only [List.map_cons, List.map_nil, h 0 (by norm_num), h 1 (by norm_num),
      h 2 (by norm_num), h 3 (by norm_num), h 4 (by norm_num)]
    norm_num
  · norm_num

/-- C6: in every reachable state of the packet channel the receive history
followed by the in-flight buffer equals the send history — every packet sent
is delivered to the receiving side exactly once and in send order, none is
dropped — and the buffer never exceeds the fixed capacity (a send is only
possible below capacity; a producer at capacity blocks). -/
theorem packet_channel_no_loss {α : Type} (c : SyncChannel α) (h : ChanReachable c) :
    c.received ++ c.buffer = c.sent ∧ c.buffer.length ≤ c.capacity := by
  induction h with
  | init cap => simp
  | step hr hs ih =>
    cases hs with
    | send a hlt =>
      refine ⟨?_, ?_⟩
      · simp [← List.append_assoc, ih.1]
      · simpa using hlt
    | recv a rest hbuf =>
      refine ⟨?_, ?_⟩
      · rw [List.append_assoc]
        simpa [hbuf] using ih.1
      · have h2 := ih.2
        rw [hbuf] at h2
        simp at h2 ⊢
        omega

/-- C6 witness: starting from a fresh channel of the code capacity 128, send
one packet then receive it; the invariant instantiates to a concrete
delivered-exactly-once state. -/
theorem packet_channel_no_loss_witness :
    ([Packet.mk 0] : List Packet) ++ [] = [Packet.mk 0] ∧
      ([] : List Packet).length ≤ packet_channel_capacity :=
  packet_channel_no_loss
    { capacity := packet_channel_capacity, buffer := [], sent := [Packet.mk 0],
      received := [Packet.mk 0] }
    (ChanReachable.step
      (ChanReachable.step (ChanReachable.init packet_channel_capacity)
        (ChanStep.send _ (Packet.mk 0) (by simp [packet_channel_capacity])))
      (ChanStep.recv _ (Packet.mk 0) [] rfl))

theorem chunks_exact_eq {α : Type} (S : ℕ) (hS : 0 < S) :
    ∀ (H : ℕ) (data : List α), data.length = H * S →
      chunks_exact S data = (List.range H).map (fun i => (data.drop (i * S)).take S) := by
  intro H
  induction H with
  | zero =>
    intro data hlen
    rw [chunks_exact]
    rw [dif_neg (by omega)]
    simp
  | succ n ih =>
    intro data hlen
    rw [chunks_exact]
    rw [dif_pos ⟨hS, by rw [hlen, Nat.succ_mul]; omega⟩]
    rw [ih (data.drop S) (by rw [List.length_drop, hlen, Nat.succ_mul]; omega)]
    rw [List.range_succ_eq_map]
    simp only [List.map_cons, List.map_map, Nat.zero_mul, List.drop_zero]
    refine congrArg₂ _ rfl ?_
    refine List.map_congr_left (fun i _ => ?_)
    simp only [Function.comp, List.drop_drop, Nat.succ_eq_add_one, Nat.add_mul, Nat.one_mul]
    rw [Nat.add_comm]

theorem zipWith_take_replicate {α : Type} (k : ℕ) (z : α) :
    ∀ (l : List (List α)) (n : ℕ), l.length = n →
      List.zipWith (fun s d => s.take d.length) l (List.replicate n (List.replicate k z))
        = l.map (fun s => s.take k) := by
  intro l
  induction l with
  | nil => intro n h; simp
  | cons x xs ih =>
    intro n h
    cases n with
    | zero => simp at h
    | succ m =>
      rw [List.replicate_succ]
      simp only [List.zipWith_cons_cons, List.map_cons, List.length_replicate]
      rw [ih m (by simpa using h)]

theorem flatten_rows_extract {α : Type} (k : ℕ) :
    ∀ (H : ℕ) (g : ℕ → List α), (∀ j, j < H → (g j).length = k) →
      ∀ i, i < H →
        ((((List.range H).map g).flatten).drop (i * k)).take k = g i := by
  intro H
  induction H with
  | zero => intro g hg i hi; omega
  | succ n ih =>
    intro g hg i hi
    rw [List.range_succ_eq_map]
    simp only [List.map_cons, List.map_map, List.flatten_cons]
    cases i with
    | zero =>
      rw [Nat.zero_mul, List.drop_zero]
      exact List.take_left' (hg 0 (by omega))
    | succ i =>
      have harith : Nat.succ i * k = k + i * k := by rw [Nat.succ_mul]; omega
      rw [harith, ← List.drop_drop, List.drop_left' (hg 0 (by omega))]
      have := ih (fun j => g (Nat.succ j)) (fun j hj => hg (Nat.succ j) (by omega)) i (by omega)
      simpa [Function.comp] using this

/-- C7: for a rescaled frame of width `W`, height `H`, plane-0 stride
`S ≥ 3W` and a full `H * S` bytes of plane data, the converter output is a
packed buffer of exactly `W * H * 3` bytes whose `i`-th row is the `i`-th
source row truncated to its first `3W` bytes (stride padding never copied);
in particular the first output row is the first source row so truncated.
Additionally the rescaler is configured with destination dimensions equal to
the source dimensions (no geometric scaling) and destination format RGB24. -/
theorem frame_converter_packed_rows (f : VideoFrame) (hW : 0 < f.width)
    (hS : 3 * f.width ≤ f.stride0)
    (hlen : f.data0.length = f.height * f.stride0) :
    (copy_to_pixel_buffer f).length = f.width * f.height * 3 ∧
    (∀ i, i < f.height →
      ((copy_to_pixel_buffer f).drop (i * (3 * f.width))).take (3 * f.width)
        = (f.data0.drop (i * f.stride0)).take (3 * f.width)) ∧
    (copy_to_pixel_buffer f).take (3 * f.width) = f.data0.take (3 * f.width) ∧
    (∀ fr : VideoFrame, (rescaler fr).dst_width = fr.width ∧
      (rescaler fr).dst_height = fr.height ∧ (rescaler fr).dst_format = .RGB24) := by
  have hSpos : 0 < f.stride0 := by omega
  have hchunks := chunks_exact_eq f.stride0 hSpos f.height f.data0 hlen
  have hlenchunks : (chunks_exact f.stride0 f.data0).length = f.height := by
    rw [hchunks]; simp
  have hzip := zipWith_take_replicate (3 * f.width) 0
    (chunks_exact f.stride0 f.data0) f.height hlenchunks
  have hdroptail : (List.replicate f.height (List.replicate (3 * f.width) (0 : ℕ))).drop
      (chunks_exact f.stride0 f.data0).length = [] := by
    rw [hlenchunks]; simp
  have hbody : copy_to_pixel_buffer f
      = ((List.range f.height).map
          (fun i => (f.data0.drop (i * f.stride0)).take (3 * f.width))).flatten := by
    rw [copy_to_pixel_buffer]
    rw [hdroptail, List.append_nil, hzip, hchunks, List.map_map]
    refine congrArg _ (List.map_congr_left (fun i _ => ?_))
    simp only [Function.comp]
    rw [List.take_take, min_eq_left hS]
  have hrowlen : ∀ j, j < f.height →
      ((f.data0.drop (j * f.stride0)).take (3 * f.width)).length = 3 * f.width := by
    intro j hj
    simp only [List.length_take, List.length_drop, hlen]
    have : j * f.stride0 + f.stride0 ≤ f.height * f.stride0 := by
      have := Nat.succ_le_of_lt hj
      calc j * f.stride0 + f.stride0 = (j + 1) * f.stride0 := by ring
        _ ≤ f.height * f.stride0 := Nat.mul_le_mul_right _ this
    omega
  have hrows : ∀ i, i < f.height →
      ((copy_to_pixel_buffer f).drop (i * (3 * f.width))).take (3 * f.width)
        = (f.data0.drop (i * f.stride0)).take (3 * f.width) := by
    intro i hi
    rw [hbody]
    exact flatten_rows_extract (3 * f.width) f.height _ hrowlen i hi
  refine ⟨?_, hrows, ?_, fun fr => ⟨rfl, rfl, rfl⟩⟩
  · rw [hbody, List.length_flatten, List.map_map]
    have : List.map (List.length ∘ fun i => (f.data0.drop (i * f.stride0)).take (3 * f.width))
        (List.range f.height) = List.map (fun _ => 3 * f.width) (List.range f.height) := by
      refine List.map_congr_left (fun j hj => ?_)
      exact hrowlen j (List.mem_range.mp hj)
    rw [this, List.map_const', List.sum_replicate, smul_eq_mul, List.length_range]
    ring
  · rcases Nat.eq_zero_or_pos f.height with hH | hH
    · have hdata : f.data0 = [] := by
        rw [← List.length_eq_zero, hlen, hH, Nat.zero_mul]
      have hcopy : copy_to_pixel_buffer f = [] := by
        rw [hbody, hH]
        simp
      rw [hcopy, hdata]
    · have := hrows 0 hH
      simpa using this

/-- C7 witness: the converter theorem applied to `witness_frame`; its output
has exactly `1 * 2 * 3` bytes and starts with the first source row minus the
padding byte. -/
theorem frame_converter_packed_rows_witness :
    (copy_to_pixel_buffer witness_frame).length
        = witness_frame.width * witness_frame.height * 3 ∧
      (copy_to_pixel_buffer witness_frame).take (3 * witness_frame.width)
        = witness_frame.data0.take (3 * witness_frame.width) :=
  ⟨(frame_converter_packed_rows witness_frame (by decide) (by decide) (by decide)).1,
    (frame_converter_packed_rows witness_frame (by decide) (by decide) (by decide)).2.2.1⟩

theorem frame_delivery_trace (clock : StreamClock) (f : DecodedFrame) (s : WorkerState)
    (h : s.trace.all pacing_or_frame = true) :
    ((frame_delivery clock f s).1.trace.all pacing_or_frame) = true := by
  cases hc : clock.convert_pts_to_instant f.pts s.now with
  | error p => simpa [frame_delivery, hc] using h
  | ok o =>
    cases o with
    | none => simp [frame_delivery, hc, h, pacing_or_frame]
    | some d => simp [frame_delivery, hc, h, pacing_or_frame]

theorem and_then_worker_trace (r : WorkerState × Option Panic)
    (k : WorkerState → WorkerState × Option Panic)
    (hr : r.1.trace.all pacing_or_frame = true)
    (hk : ∀ s, s.trace.all pacing_or_frame = true →
      ((k s).1.trace.all pacing_or_frame) = true) :
    ((and_then_worker r k).1.trace.all pacing_or_frame) = true := by
  rcases r with ⟨s, _ | p⟩
  · exact hk s hr
  · simpa [and_then_worker] using hr

theorem foldl_frames_trace (clock : StreamClock) :
    ∀ (frames : List DecodedFrame) (r : WorkerState × Option Panic),
      r.1.trace.all pacing_or_frame = true →
      ((frames.foldl (fun r f => and_then_worker r (frame_delivery clock f)) r).1.trace.all
        pacing_or_frame) = true := by
  intro frames
  induction frames with
  | nil => intro r h; simpa using h
  | cons f fs ih =>
    intro r h
    rw [List.foldl_cons]
    exact ih _ (and_then_worker_trace r _ h (fun s hs => frame_delivery_trace clock f s hs))

theorem process_packet_trace (codec : Codec) (clock : StreamClock) (p : Packet)
    (s : WorkerState) (h : s.trace.all pacing_or_frame = true) :
    ((process_packet codec clock p s).1.trace.all pacing_or_frame) = true := by
  cases hc : codec p with
  | error e => simpa [process_packet, hc] using h
  | ok frames =>
    rw [process_packet, hc]
    exact foldl_frames_trace clock frames (s, none) (by simpa using h)

theorem worker_inner_loop_trace (codec : Codec) (clock : StreamClock) :
    ∀ (packets : List Packet) (s : WorkerState), s.trace.all pacing_or_frame = true →
      ((worker_inner_loop codec clock packets s).1.trace.all pacing_or_frame) = true := by
  intro packets
  induction packets with
  | nil => intro s h; simpa [worker_inner_loop] using h
  | cons p ps ih =>
    intro s h
    rw [worker_inner_loop]
    exact and_then_worker_trace _ _ (process_packet_trace codec clock p s h)
      (fun s' hs' => ih s' hs')

/-- C1: the pacing wait of the Decoder Worker is the unconditional
`std::thread::sleep` of lib.rs:119 and the worker never interacts with the
Control Channel: for every codec, clock, packet sequence and observation
length, its trace consists solely of full pacing sleeps and frame
deliveries — it contains no control-channel read and no interruptible
control-keyed wait, so a pending Stop or Pause cannot preempt it. In the
concrete session the worker sleeps the full 1-second frame delay. -/
theorem pacing_sleep_unconditional :
    (∀ (codec : Codec) (clock : StreamClock) (packets : List Packet) (fuel : ℕ),
      ((worker_thread codec clock packets fuel).2.trace.all pacing_or_frame) = true) ∧
    worker_thread codec_one_frame clock25 [{ id := 0 }] 3
      = (.running, { now := 1, trace := [.sleep 1, .emitFrame { pts := some 25 }] }) := by
  constructor
  · intro codec clock packets fuel
    rw [worker_thread]
    cases h : worker_inner_loop codec clock packets { now := 0, trace := [] } with
    | mk s po =>
      have htr := worker_inner_loop_trace codec clock packets { now := 0, trace := [] }
        (by simp)
      rw [h] at htr
      cases po <;> simpa using htr
  · have hconv : clock25.convert_pts_to_instant (some 25) 0 = .ok (some 1) := by
      norm_num [StreamClock.convert_pts_to_instant, Duration.from_secs_f64,
        Instant.checked_add, Instant.duration_since, clock25]
    have houter : outer_loop 3 = .running := rfl
    simp [worker_thread, worker_inner_loop, process_packet, codec_one_frame,
      and_then_worker, frame_delivery, hconv, houter]

/-- C2: the inner receive loop does observe the packet-channel disconnect —
on an exhausted packet list it exits with no panic — but the worker thread
then enters the outer loop of lib.rs:131-144, which has no exit path: after
any number of iterations the thread is still running, so the thread never
terminates, on disconnect or otherwise. -/
theorem worker_never_exits :
    (∀ (codec : Codec) (clock : StreamClock) (s : WorkerState),
      worker_inner_loop codec clock [] s = (s, none)) ∧
    (∀ (fuel : ℕ), outer_loop fuel = .running) ∧
    (∀ (codec : Codec) (clock : StreamClock) (packets : List Packet) (fuel : ℕ),
      (worker_thread codec clock packets fuel).1 ≠ .exited) := by
  have houter : ∀ (fuel : ℕ), outer_loop fuel = .running := by
    intro fuel
    induction fuel with
    | zero => rfl
    | succ n ih => simpa [outer_loop, outer_loop_body] using ih
  refine ⟨fun codec clock s => rfl, houter, ?_⟩
  intro codec clock packets fuel
  rw [worker_thread]
  cases h : worker_inner_loop codec clock packets { now := 0, trace := [] } with
  | mk s po =>
    cases po with
    | none => simp [houter fuel]
    | some p => simp

/-- C5: a packet whose decode fails does terminate the worker: the
`send_packet` result is unwrapped (lib.rs:112), so the first failing packet
panics the thread instead of being logged and skipped, regardless of the
packets queued after it. -/
theorem decode_error_panics_worker (codec : Codec) (clock : StreamClock)
    (bad : Packet) (rest : List Packet) (fuel : ℕ) (e : DecodeError)
    (h : codec bad = .error e) :
    (worker_thread codec clock (bad :: rest) fuel).1 = .panicked .unwrapErr := by
  simp [worker_thread, worker_inner_loop, process_packet, h, and_then_worker]

/-- C5 witness: with a codec that rejects its packet, the worker thread
panics on the first of two queued packets. -/
theorem decode_error_panics_worker_witness :
    (worker_thread codec_rejects clock25 [{ id := 7 }, { id := 8 }] 5).1
      = .panicked .unwrapErr :=
  decode_error_panics_worker codec_rejects clock25 { id := 7 } [{ id := 8 }] 5
    .invalidData rfl

/-- C3: none of the three open-path error kinds is returned synchronously to
the caller: `VideoPlayer::start` returns to its caller with no error channel
(unit), and an open failure, a missing video stream, or a failure to build
the codec context or video decoder each abort the spawned Playback Thread
with an `unwrap` panic instead. -/
theorem open_errors_panic_on_playback_thread (env : OpenEnv)
    (h : open_path_fails env) :
    (handle_video_source env).1 = () ∧
    (handle_video_source env).2 = .panicked .unwrapErr := by
  refine ⟨rfl, ?_⟩
  rcases h with ⟨e, he⟩ | ⟨c, hc, hb⟩ | ⟨c, s, e, hc, hs, hf⟩ |
    ⟨c, s, ctx, e, hc, hs, hf, hv⟩ <;>
    simp [handle_video_source, playback_thread_body, *]

/-- C3 witness: a missing source file panics the Playback Thread while the
caller of start observes nothing. -/
theorem open_errors_panic_witness :
    (handle_video_source missing_file_env).1 = () ∧
    (handle_video_source missing_file_env).2 = .panicked .unwrapErr :=
  open_errors_panic_on_playback_thread missing_file_env (Or.inl ⟨.fileMissing, rfl⟩)

/-- C4: dropping the player handle performs none of the required teardown —
it neither sends Stop nor joins the decode thread, it only empties the
handle slot (detaching the thread) — and the worker outer loop has no exit,
so the decode thread keeps running after the handle is gone. -/
theorem video_player_drop_no_teardown (vp : VideoPlayerState) :
    ((VideoPlayer.drop vp).2.all fun e => !(teardown_is_stop_or_join e)) = true ∧
    (VideoPlayer.drop vp).1.playback_thread = none ∧
    (∀ (fuel : ℕ), outer_loop fuel ≠ .exited) := by
  have houter : ∀ (fuel : ℕ), outer_loop fuel = .running := by
    intro fuel
    induction fuel with
    | zero => rfl
    | succ n ih => simpa [outer_loop, outer_loop_body] using ih
  refine ⟨?_, ?_, fun fuel => by simp [houter fuel]⟩ <;>
    cases hvp : vp.playback_thread <;>
      simp [VideoPlayer.drop, hvp, teardown_is_stop_or_join]

/-- C10: after `VideoDecoder::start` returns, the receiving end of the
control channel has been dropped (it was never moved into the worker
thread), so sending any of Play, Pause or Stop through
`send_control_message` finds the channel disconnected and the `unwrap`
panics the calling thread. -/
theorem send_control_message_always_panics (message : ControlCommand) :
    VideoDecoder.send_control_message VideoDecoder.start message = .error .unwrapErr := rfl

end VideoTagger
